import Mathlib

/-!
# Book Library front end: view state, derived list and debounced search

A shallow embedding of `frontend/src/App.jsx`, `components/BookList.jsx` and
`components/SearchBar.jsx`.

* React state is an explicit record (`AppState`); every handler is a function
  from the state (and the outcome of the network request it awaits) to the
  next state.
* JavaScript values that the code compares without coercion (`===`, `!==`,
  `Array.prototype.includes`) are values of `JsVal`; numbers are integers, so
  `NaN` does not occur and strict equality coincides with SameValueZero.
* `String.prototype.localeCompare` is a parameter `lc : String → String → Int`.
* `Array.prototype.sort` is a stable sort driven by the sign of the comparator.
* Timers of the search bar are explicit data: a pending timer is the pair of
  its due time in milliseconds and the value captured by its closure.
-/

namespace BookLibrary

/-! ## JavaScript values -/

/-- A JavaScript primitive as it comes out of `JSON.parse` (plus `undefined`
for an absent field). -/
inductive JsVal where
  | undefined
  | null
  | bool (b : Bool)
  | num (n : Int)
  | str (s : String)
  deriving DecidableEq, Repr

/-- JavaScript truthiness (`ToBoolean`). -/
def JsVal.truthy : JsVal → Bool
  | .undefined => false
  | .null => false
  | .bool b => b
  | .num n => decide (n ≠ 0)
  | .str s => decide (s ≠ "")

/-- The membership test `arr.includes(x)`: some element is the same value as `x`,
without any conversion between types. -/
def includes (arr : List JsVal) (x : JsVal) : Bool :=
  arr.any (fun y => decide (y = x))

/-! ## Data model -/

/-- A book record as returned by the backend. `genre` and `year` are optional. -/
structure Book where
  id : JsVal
  title : String
  author : String
  genre : Option String
  year : Option Int
  available : JsVal
  deriving DecidableEq, Repr

/-- The state `stats` of `App`. -/
structure Stats where
  total : Nat
  available : Nat
  deriving DecidableEq, Repr

/-- The `useState` cells of `App`. -/
structure AppState where
  books : List Book
  allBooks : List Book
  loading : Bool
  error : Option String
  editingBook : Option Book
  searchTerm : String
  stats : Stats
  selectedGenre : String
  sortOption : String
  readingListIds : List JsVal
  activeTab : String
  selectedBook : Option Book
  deriving DecidableEq, Repr

/-- The initial values passed to `useState` in `App`. -/
def initialState : AppState where
  books := []
  allBooks := []
  loading := true
  error := none
  editingBook := none
  searchTerm := ""
  stats := { total := 0, available := 0 }
  selectedGenre := "All Genres"
  sortOption := "title-asc"
  readingListIds := []
  activeTab := "all"
  selectedBook := none

/-! ## Fetching -/

/-- How the awaited part of `fetchBooks` ends: `resolved payload` when
`fetch` and `response.json()` both resolve, where `payload` is `some B` if
`data?.books` is the array `B` and `none` if that field is absent or not an
array; `rejected` when either of them throws. -/
inductive FetchOutcome where
  | resolved (payload : Option (List Book))
  | rejected
  deriving DecidableEq, Repr

/-- The function `updateStats` of `App.jsx` (lines 47-53). -/
def updateStats (s : AppState) (booksList : List Book) : AppState :=
  let available := booksList.filter (fun book => decide (book.available = JsVal.bool true))
  { s with stats := { total := booksList.length, available := available.length } }

/-- The function `fetchBooks` of `App.jsx` (lines 21-45), from the call to the
end of its `finally` block. -/
def fetchBooks (s : AppState) (search : String) (o : FetchOutcome) : AppState :=
  let s1 := { s with loading := true }
  let s2 :=
    match o with
    | .resolved payload =>
      let booksArray := payload.getD []
      let s3 := if search = "" then { s1 with allBooks := booksArray } else s1
      let s4 := { s3 with books := booksArray }
      let s5 := updateStats s4 booksArray
      { s5 with error := none }
    | .rejected => { s1 with error := some "Failed to load books. Please try again." }
  { s2 with loading := false }

/-- The handler `handleSearch` of `App.jsx` (lines 78-81). -/
def handleSearch (s : AppState) (term : String) (o : FetchOutcome) : AppState :=
  fetchBooks { s with searchTerm := term } term o

/-- The handler `handleGenreChange` of `App.jsx` (lines 83-85); `SearchBar`
calls it with the value of the option picked in the genre selector. -/
def handleGenreChange (s : AppState) (genre : String) : AppState :=
  { s with selectedGenre := genre }

/-- One completed call of `fetchBooks`: its search term and how it ended. -/
structure FetchEvent where
  search : String
  outcome : FetchOutcome
  deriving DecidableEq, Repr

/-- The state of `App` after a sequence of completed fetches, oldest first. -/
def runFetches (s : AppState) (evs : List FetchEvent) : AppState :=
  evs.foldl (fun st ev => fetchBooks st ev.search ev.outcome) s

/-- The full unfiltered baseline in the words of the specification: the
result of the most recent successful fetch with an empty search term, and the
empty list while there has been none. -/
def latestBaseline (evs : List FetchEvent) : List Book :=
  evs.foldl
    (fun base ev =>
      match ev.outcome with
      | .resolved payload => if ev.search = "" then payload.getD [] else base
      | .rejected => base)
    []

/-! ## Mutations -/

/-- How the awaited request of a mutation ends: it throws, or it resolves with
an HTTP status code. -/
inductive MutationOutcome where
  | threw
  | status (code : Nat)
  deriving DecidableEq, Repr

/-- The getter `response.ok`: the status is in the range 200-299. -/
def responseOk (code : Nat) : Bool := decide (200 ≤ code ∧ code ≤ 299)

/-- What a mutation handler did: the next state, the search term of the
`fetchBooks` call it issued (if any), and its return value (if any). -/
structure HandlerResult where
  state : AppState
  refetch : Option String
  returned : Option Bool
  deriving DecidableEq, Repr

/-- The handler `handleAddBook` of `App.jsx` (lines 91-110). -/
def handleAddBook (s : AppState) (o : MutationOutcome) : HandlerResult :=
  match o with
  | .status code =>
    if code = 201 then
      { state := s, refetch := some s.searchTerm, returned := some true }
    else
      { state := s, refetch := none, returned := some false }
  | .threw =>
    { state := { s with error := some "Failed to add book" }, refetch := none,
      returned := some false }

/-- The handler `handleUpdateBook` of `App.jsx` (lines 112-132). -/
def handleUpdateBook (s : AppState) (o : MutationOutcome) : HandlerResult :=
  match o with
  | .status code =>
    if responseOk code then
      { state := { s with editingBook := none }, refetch := some s.searchTerm,
        returned := some true }
    else
      { state := s, refetch := none, returned := some false }
  | .threw =>
    { state := { s with error := some "Failed to update book" }, refetch := none,
      returned := some false }

/-- The handler `handleDeleteBook` of `App.jsx` (lines 134-150); `confirmed` is
the answer of `window.confirm`. -/
def handleDeleteBook (s : AppState) (confirmed : Bool) (o : MutationOutcome) :
    HandlerResult :=
  if !confirmed then
    { state := s, refetch := none, returned := none }
  else
    match o with
    | .status code =>
      if responseOk code then
        { state := s, refetch := some s.searchTerm, returned := none }
      else
        { state := s, refetch := none, returned := none }
    | .threw =>
      { state := { s with error := some "Failed to delete book" }, refetch := none,
        returned := none }

/-- The handler `handleToggleAvailability` of `App.jsx` (lines 152-164). -/
def handleToggleAvailability (s : AppState) (o : MutationOutcome) : HandlerResult :=
  match o with
  | .status code =>
    if responseOk code then
      { state := s, refetch := some s.searchTerm, returned := none }
    else
      { state := s, refetch := none, returned := none }
  | .threw =>
    { state := { s with error := some "Failed to toggle availability" }, refetch := none,
      returned := none }

/-- The four mutations of `App`. -/
inductive Mutation where
  | create
  | update
  | delete
  | toggleAvailability
  deriving DecidableEq, Repr

/-- The success test each mutation applies to the status of its response. -/
def Mutation.succeeds : Mutation → Nat → Bool
  | .create, code => decide (code = 201)
  | .update, code => responseOk code
  | .delete, code => responseOk code
  | .toggleAvailability, code => responseOk code

/-- Runs the handler of a mutation whose request has been issued (for a
deletion: the user has confirmed). -/
def runMutation (m : Mutation) (s : AppState) (o : MutationOutcome) : HandlerResult :=
  match m with
  | .create => handleAddBook s o
  | .update => handleUpdateBook s o
  | .delete => handleDeleteBook s true o
  | .toggleAvailability => handleToggleAvailability s o

/-- A mutation failed: the request threw, or its status is not a success. -/
def mutationFailed (m : Mutation) : MutationOutcome → Bool
  | .threw => true
  | .status code => !m.succeeds code

/-! ## Bookmarks -/

/-- The updater passed to `setReadingListIds` by `handleToggleReadingList`
(`App.jsx`, lines 173-177), applied to the previous list. -/
def handleToggleReadingList (prev : List JsVal) (id : JsVal) : List JsVal :=
  if includes prev id then prev.filter (fun bookId => decide (bookId ≠ id))
  else prev ++ [id]

/-- The constant `isInReadingList` of `BookList.jsx` (line 36). -/
def isInReadingList (readingListIds : List JsVal) (book : Book) : Bool :=
  includes readingListIds book.id

/-! ## Derived view -/

/-- The expression `book.genre || 'Uncategorized'`. -/
def genreOrDefault (book : Book) : String :=
  match book.genre with
  | some g => if g = "" then "Uncategorized" else g
  | none => "Uncategorized"

/-- The constant `genreSource` of `App.jsx` (line 187). -/
def genreSource (allBooks books : List Book) : List Book :=
  if allBooks.length > 0 then allBooks else books

/-- The expression `Array.from(new Set(xs))`: the elements of `xs` are added one
after the other to a set that keeps insertion order and ignores an element it
already holds. -/
def arrayFromSet (xs : List String) : List String :=
  xs.foldl (fun acc x => if x ∈ acc then acc else acc ++ [x]) []

/-- The constant `genres` of `App.jsx` (lines 188-192), as a function of the
constant `genreSource` it reads. -/
def genres (source : List Book) : List String :=
  "All Genres" ::
    arrayFromSet ((source.map genreOrDefault).filter (fun g => decide (g ≠ "")))

/-- The genre vocabulary rendered by `App` in state `s`. -/
def AppState.genres (s : AppState) : List String :=
  BookLibrary.genres (genreSource s.allBooks s.books)

/-- The variable `visibleBooks` of `App.jsx` (lines 194-202). -/
def visibleBooks (books : List Book) (selectedGenre activeTab : String)
    (readingListIds : List JsVal) : List Book :=
  let v1 :=
    if selectedGenre ≠ "" ∧ selectedGenre ≠ "All Genres" then
      books.filter (fun book => decide (genreOrDefault book = selectedGenre))
    else books
  if activeTab = "reading" then
    v1.filter (fun book => includes readingListIds book.id)
  else v1

/-- The comparator passed to `sort` in `App.jsx` (lines 204-220). -/
def compareBooks (lc : String → String → Int) (sortOption : String) (a b : Book) : Int :=
  if sortOption = "title-asc" then lc a.title b.title
  else if sortOption = "title-desc" then lc b.title a.title
  else if sortOption = "year-desc" then b.year.getD 0 - a.year.getD 0
  else if sortOption = "year-asc" then a.year.getD 0 - b.year.getD 0
  else if sortOption = "availability" then
    if a.available = b.available then lc a.title b.title
    else if a.available.truthy then -1 else 1
  else 0

/-- The method `Array.prototype.sort` on a copy of the array: a stable sort in
which `a` stays before `b` when `cmp a b ≤ 0`. -/
def arraySort {α : Type} (cmp : α → α → Int) (xs : List α) : List α :=
  xs.insertionSort (fun a b => cmp a b ≤ 0)

/-- The constant `sortedBooks` of `App.jsx` (lines 204-220). -/
def sortedBooks (lc : String → String → Int) (books : List Book)
    (selectedGenre activeTab : String) (readingListIds : List JsVal)
    (sortOption : String) : List Book :=
  arraySort (compareBooks lc sortOption)
    (visibleBooks books selectedGenre activeTab readingListIds)

/-! ## Debounced search (`SearchBar.jsx`) -/

/-- The search bar between two events: the state cell `inputValue` and the
timer created by the last run of the effect, if it has neither fired nor been
cleared: its due time and the `inputValue` its closure captured. -/
structure SearchBar where
  inputValue : String
  pending : Option (Nat × String)
  deriving DecidableEq, Repr

/-- Delay passed to `setTimeout`. -/
def debounceDelay : Nat := 300

/-- Mounting at time `t`: `inputValue` is `''` and the effect runs once. -/
def SearchBar.mount (t : Nat) : SearchBar :=
  { inputValue := "", pending := some (t + debounceDelay, "") }

/-- Lets time pass until `t`: a pending timer that is due by then fires, which
calls `onSearch` with the captured value. Returns the calls made. -/
def SearchBar.advance (sb : SearchBar) (t : Nat) : SearchBar × List (Nat × String) :=
  match sb.pending with
  | some (due, v) =>
    if due ≤ t then ({ sb with pending := none }, [(due, v)]) else (sb, [])
  | none => (sb, [])

/-- The handler `handleChange` at time `t` with `e.target.value = v`: the state
is set to `v`; when that changes `inputValue` the effect is cleaned up
(`clearTimeout`) and run again (`setTimeout` for `t + 300`). -/
def SearchBar.handleChange (sb : SearchBar) (t : Nat) (v : String) : SearchBar :=
  if v = sb.inputValue then sb
  else { inputValue := v, pending := some (t + debounceDelay, v) }

/-- Processes keystrokes `(t, v)` in order of time and returns the final
state and all calls of `onSearch` made up to the last keystroke. -/
def SearchBar.run (sb : SearchBar) : List (Nat × String) → SearchBar × List (Nat × String)
  | [] => (sb, [])
  | (t, v) :: rest =>
    let (sb1, fired1) := sb.advance t
    let (sb2, fired2) := SearchBar.run (sb1.handleChange t v) rest
    (sb2, fired1 ++ fired2)

/-- Silence after the keystrokes: the pending timer, if any, fires when due. -/
def SearchBar.settle (sb : SearchBar) : List (Nat × String) :=
  match sb.pending with
  | some (due, v) => [(due, v)]
  | none => []

/-- All calls of `onSearch`, as pairs of time and argument, caused by the
keystrokes `ks` followed by silence. -/
def SearchBar.triggers (sb : SearchBar) (ks : List (Nat × String)) : List (Nat × String) :=
  let (sb1, fired) := sb.run ks
  fired ++ sb1.settle

/-- Lexicographic comparison of two sequences of code points. -/
def compareCodePoints : List Nat → List Nat → Int
  | [], [] => 0
  | [], _ :: _ => -1
  | _ :: _, [] => 1
  | x :: xs, y :: ys =>
    if x < y then -1 else if y < x then 1 else compareCodePoints xs ys

/-- A concrete `localeCompare`: the order of the code points, as in the
root locale for unaccented letters of one case. -/
def sampleCompare (a b : String) : Int :=
  compareCodePoints (a.toList.map Char.toNat) (b.toList.map Char.toNat)

/-- The two records of the first end-to-end scenario. -/
def scenarioBooks : List Book :=
  [ { id := .num 1, title := "B", author := "X", genre := none, year := none,
      available := .bool true },
    { id := .num 2, title := "A", author := "Y", genre := none, year := none,
      available := .bool false } ]

/-- A record whose genre is spelled like the sentinel of the genre selector. -/
def sentinelGenreBook : Book :=
  { id := .num 9, title := "Atlas", author := "Z", genre := some "All Genres",
    year := none, available := .bool true }

/-- A record whose identifier is the number 5. -/
def bookFive : Book :=
  { id := .num 5, title := "Dune", author := "Frank Herbert", genre := some "Sci-Fi",
    year := some 1965, available := .bool true }

/-! ## Bookmarks: theorems -/

theorem includes_iff (arr : List JsVal) (x : JsVal) : includes arr x = true ↔ x ∈ arr := by
  unfold includes
  simp only [List.any_eq_true, decide_eq_true_eq]
  constructor
  · rintro ⟨y, hy, rfl⟩
    exact hy
  · intro h
    exact ⟨x, h, rfl⟩

theorem includes_eq_false_iff (arr : List JsVal) (x : JsVal) :
    includes arr x = false ↔ x ∉ arr := by
  rw [← includes_iff, Bool.not_eq_true]

theorem filter_ne_eq_self (prev : List JsVal) (id : JsVal) (h : id ∉ prev) :
    prev.filter (fun bookId => decide (bookId ≠ id)) = prev := by
  rw [List.filter_eq_self]
  intro a ha
  simp only [ne_eq, decide_not, Bool.not_eq_eq_eq_not, Bool.not_true, decide_eq_false_iff_not]
  rintro rfl
  exact h ha

/-- C3: toggling `id` flips the membership of `id`, keeps the membership of
every other identifier, and toggling an absent `id` twice gives back the
original list; from the empty list the first toggle of 5 gives `[5]` and the
second gives `[]`. -/
theorem handleToggleReadingList_flips (prev : List JsVal) (id : JsVal) :
    includes (handleToggleReadingList prev id) id = !includes prev id ∧
    (∀ other, other ≠ id →
      includes (handleToggleReadingList prev id) other = includes prev other) ∧
    (includes prev id = false →
      handleToggleReadingList (handleToggleReadingList prev id) id = prev) ∧
    handleToggleReadingList [] (.num 5) = [.num 5] ∧
    handleToggleReadingList (handleToggleReadingList [] (.num 5)) (.num 5) = [] := by
  refine ⟨?_, ?_, ?_, by decide, by decide⟩
  · unfold handleToggleReadingList
    by_cases h : includes prev id = true
    · rw [if_pos h, h]
      simp [includes_eq_false_iff]
    · rw [if_neg h]
      rw [Bool.not_eq_true] at h
      rw [h]
      simp [includes_iff]
  · intro other hne
    rw [Bool.eq_iff_iff, includes_iff, includes_iff]
    unfold handleToggleReadingList
    split
    · simp [hne]
    · simp [hne]
  · intro h
    have hnot : id ∉ prev := (includes_eq_false_iff prev id).1 h
    have h1 : handleToggleReadingList prev id = prev ++ [id] := by
      unfold handleToggleReadingList
      rw [h]
      simp
    have h2 : includes (prev ++ [id]) id = true := by
      rw [includes_iff]
      simp
    rw [h1]
    unfold handleToggleReadingList
    rw [if_pos h2, List.filter_append, filter_ne_eq_self prev id hnot]
    simp

theorem handleToggleReadingList_flips_witness :
    includes [JsVal.num 7] (.num 5) = false ∧
    handleToggleReadingList (handleToggleReadingList [JsVal.num 7] (.num 5)) (.num 5)
      = [JsVal.num 7] :=
  ⟨by decide, (handleToggleReadingList_flips [JsVal.num 7] (.num 5)).2.2.1 (by decide)⟩

/-- C5, as stated, fails: with the string "5" stored, the record whose id is
the number 5 is not found by the test, by the button label or by the reading
tab, although the string "5" is found; toggling it adds a second entry. -/
theorem membership_depends_on_identifier_type :
    includes [JsVal.str "5"] (.num 5) ≠ includes [JsVal.str "5"] (.str "5") ∧
    isInReadingList [JsVal.str "5"] bookFive = false ∧
    visibleBooks [bookFive] "All Genres" "reading" [JsVal.str "5"] = [] ∧
    handleToggleReadingList [JsVal.str "5"] bookFive.id = [JsVal.str "5", JsVal.num 5] := by
  decide

/-- C5, amended: the button label, the reading tab and the toggle all use the
one test `includes`, which finds an identifier exactly when the list holds an
element of the same type and value; a list of strings holds no number and a
list of numbers holds no string. -/
theorem membership_is_type_exact (ids : List JsVal) (book : Book) (books : List Book)
    (selectedGenre : String) :
    isInReadingList ids book = includes ids book.id ∧
    (book ∈ visibleBooks books selectedGenre "reading" ids → includes ids book.id = true) ∧
    (includes ids book.id = true →
      handleToggleReadingList ids book.id = ids.filter (fun x => decide (x ≠ book.id))) ∧
    (includes ids book.id = false → handleToggleReadingList ids book.id = ids ++ [book.id]) ∧
    (includes ids book.id = true ↔ book.id ∈ ids) ∧
    (∀ n : Int, (∀ x ∈ ids, ∃ s : String, x = JsVal.str s) → includes ids (.num n) = false) ∧
    (∀ s : String, (∀ x ∈ ids, ∃ n : Int, x = JsVal.num n) → includes ids (.str s) = false) := by
  refine ⟨rfl, ?_, ?_, ?_, includes_iff ids book.id, ?_, ?_⟩
  · intro h
    unfold visibleBooks at h
    simp only [if_true] at h
    exact (List.mem_filter.1 h).2
  · intro h
    unfold handleToggleReadingList
    rw [if_pos h]
  · intro h
    unfold handleToggleReadingList
    rw [h]
    simp
  · intro n h
    rw [includes_eq_false_iff]
    intro hn
    obtain ⟨s, hs⟩ := h _ hn
    cases hs
  · intro s h
    rw [includes_eq_false_iff]
    intro hs
    obtain ⟨n, hn⟩ := h _ hs
    cases hn

theorem membership_is_type_exact_witness :
    includes [JsVal.num 5] bookFive.id = true ∧
    handleToggleReadingList [JsVal.num 5] bookFive.id
      = [JsVal.num 5].filter (fun x => decide (x ≠ bookFive.id)) :=
  ⟨by decide,
    (membership_is_type_exact [JsVal.num 5] bookFive [bookFive] "All Genres").2.2.1
      (by decide)⟩

/-! ## Fetching: theorems -/

/-- C8: when `fetchBooks` resolves with the array `B` (the empty list when the
field is absent or not an array) the record set is `B`, `stats.total` is the
length of `B`, `stats.available` counts the records whose `available` is
`true`, the error is cleared and `loading` is false; the scenario payload
gives stats `{total 2, available 1}`. -/
theorem fetchBooks_resolved (s : AppState) (search : String)
    (payload : Option (List Book)) :
    (fetchBooks s search (.resolved payload)).books = payload.getD [] ∧
    (fetchBooks s search (.resolved payload)).stats.total = (payload.getD []).length ∧
    (fetchBooks s search (.resolved payload)).stats.available
      = (payload.getD []).countP (fun book => decide (book.available = JsVal.bool true)) ∧
    (fetchBooks s search (.resolved payload)).error = none ∧
    (fetchBooks s search (.resolved payload)).loading = false ∧
    (fetchBooks initialState "" (.resolved (some scenarioBooks))).stats
      = { total := 2, available := 1 } := by
  refine ⟨?_, ?_, ?_, ?_, ?_, by decide⟩
  · simp [fetchBooks, updateStats]
  · simp [fetchBooks, updateStats]
  · simp [fetchBooks, updateStats, List.countP_eq_length_filter]
  · simp [fetchBooks, updateStats]
  · simp [fetchBooks, updateStats]

/-! ## Mutations: theorems -/

/-- C4, as stated, fails: a create request answered with status 500 is a
failed mutation, yet the error flag stays null. -/
theorem status_failure_leaves_error_null :
    mutationFailed .create (.status 500) = true ∧
    (runMutation .create initialState (.status 500)).state.error = none := by
  decide

/-- C4, amended: a failed mutation never issues a refetch; when the request
threw, the error flag is set to a message; when the response carries a
non-success status, the state, and so the error flag, is left as it was. -/
theorem failed_mutation_no_refetch (m : Mutation) (s : AppState) (o : MutationOutcome)
    (hfail : mutationFailed m o = true) :
    (runMutation m s o).refetch = none ∧
    (o = .threw → ∃ msg, (runMutation m s o).state.error = some msg) ∧
    (∀ code, o = .status code → (runMutation m s o).state = s) := by
  cases o with
  | threw =>
    cases m <;>
      simp [runMutation, handleAddBook, handleUpdateBook, handleDeleteBook,
        handleToggleAvailability]
  | status code =>
    cases m <;>
      simp [mutationFailed, Mutation.succeeds] at hfail <;>
      simp [runMutation, handleAddBook, handleUpdateBook, handleDeleteBook,
        handleToggleAvailability, hfail]

theorem failed_mutation_no_refetch_witness :
    mutationFailed .update (.status 404) = true ∧
    (runMutation .update initialState (.status 404)).refetch = none :=
  ⟨by decide, (failed_mutation_no_refetch .update initialState (.status 404) (by decide)).1⟩

/-! ## Visibility filter: auxiliary lemmas -/

theorem visibleBooks_as_filter (bs : List Book) (g t : String) (ids : List JsVal) :
    visibleBooks bs g t ids
      = bs.filter (fun book =>
          (decide (g = "") || decide (g = "All Genres") ||
            decide (genreOrDefault book = g)) &&
          (decide (t ≠ "reading") || includes ids book.id)) := by
  unfold visibleBooks
  by_cases hg : g ≠ "" ∧ g ≠ "All Genres"
  · by_cases ht : t = "reading"
    · simp [hg, ht, List.filter_filter, Bool.and_comm]
    · simp [hg, ht]
  · have hg2 : g = "" ∨ g = "All Genres" := by
      by_contra hcon
      push_neg at hcon
      exact hg hcon
    by_cases ht : t = "reading"
    · rcases hg2 with h | h <;> simp [h, ht]
    · rcases hg2 with h | h <;> simp [h, ht]

theorem visibleBooks_of_perm (out books : List Book) (g t : String) (ids : List JsVal)
    (h : out.Perm (visibleBooks books g t ids)) : visibleBooks out g t ids = out := by
  rw [visibleBooks_as_filter, List.filter_eq_self]
  intro a ha
  have hm := h.mem_iff.1 ha
  rw [visibleBooks_as_filter] at hm
  exact (List.mem_filter.1 hm).2

/-! ## Genre vocabulary: theorems -/

theorem genreOrDefault_ne_empty (book : Book) : genreOrDefault book ≠ "" := by
  unfold genreOrDefault
  cases book.genre with
  | none => decide
  | some g =>
    by_cases h : g = ""
    · simp only [h, if_true]
      decide
    · simp [h]

theorem filter_nonempty_genres (source : List Book) :
    (source.map genreOrDefault).filter (fun g => decide (g ≠ "")) = source.map genreOrDefault := by
  rw [List.filter_eq_self]
  intro g hg
  obtain ⟨b, _, rfl⟩ := List.mem_map.1 hg
  simpa using genreOrDefault_ne_empty b

theorem foldl_setAdd (xs acc : List String) :
    xs.foldl (fun acc x => if x ∈ acc then acc else acc ++ [x]) acc
      = acc ++ (arrayFromSet xs).filter (fun g => decide (g ∉ acc)) := by
  induction xs generalizing acc with
  | nil => simp [arrayFromSet]
  | cons x xs ih =>
    have hx : arrayFromSet (x :: xs)
        = [x] ++ (arrayFromSet xs).filter (fun g => decide (g ∉ [x])) := by
      unfold arrayFromSet
      rw [List.foldl_cons]
      simp only [List.not_mem_nil, if_false, List.nil_append]
      exact ih [x]
    rw [hx, List.foldl_cons]
    by_cases h : x ∈ acc
    · rw [if_pos h, ih acc, List.filter_append, List.filter_filter]
      congr 1
      have h1 : [x].filter (fun g => decide (g ∉ acc)) = [] := by simp [h]
      rw [h1, List.nil_append]
      apply List.filter_congr
      intro g _
      by_cases hg : g = x
      · subst hg
        simp [h]
      · simp [hg]
    · rw [if_neg h, ih (acc ++ [x]), List.filter_append, List.filter_filter]
      have h1 : [x].filter (fun g => decide (g ∉ acc)) = [x] := by simp [h]
      rw [h1, List.append_assoc]
      congr 2
      apply List.filter_congr
      intro g _
      simp [not_or]

theorem arrayFromSet_cons (x : String) (xs : List String) :
    arrayFromSet (x :: xs) = x :: (arrayFromSet xs).filter (fun g => decide (g ≠ x)) := by
  have h := foldl_setAdd xs [x]
  unfold arrayFromSet at h ⊢
  rw [List.foldl_cons]
  simp only [List.not_mem_nil, if_false, List.nil_append]
  rw [h]
  simp

theorem mem_arrayFromSet (xs : List String) (g : String) : g ∈ arrayFromSet xs ↔ g ∈ xs := by
  induction xs with
  | nil => simp [arrayFromSet]
  | cons x xs ih =>
    rw [arrayFromSet_cons]
    by_cases h : g = x
    · simp [h]
    · simp [h, ih]

theorem nodup_arrayFromSet (xs : List String) : (arrayFromSet xs).Nodup := by
  induction xs with
  | nil => simp [arrayFromSet]
  | cons x xs ih =>
    rw [arrayFromSet_cons, List.nodup_cons]
    exact ⟨by simp, ih.filter _⟩

theorem arrayFromSet_first_seen (xs : List String) :
    (arrayFromSet xs).Pairwise (fun g h => xs.indexOf g < xs.indexOf h) := by
  induction xs with
  | nil => simp [arrayFromSet]
  | cons x xs ih =>
    rw [arrayFromSet_cons, List.pairwise_cons]
    constructor
    · intro h hh
      have hne : h ≠ x := by simpa using (List.mem_filter.1 hh).2
      rw [List.indexOf_cons_self, List.indexOf_cons_ne _ (Ne.symm hne)]
      exact Nat.succ_pos _
    · have hf := List.Pairwise.and_mem.1 (ih.filter (fun g => decide (g ≠ x)))
      refine hf.imp ?_
      intro g h hgh
      obtain ⟨hg, hh, hlt⟩ := hgh
      have hgne : g ≠ x := by simpa using (List.mem_filter.1 hg).2
      have hhne : h ≠ x := by simpa using (List.mem_filter.1 hh).2
      rw [List.indexOf_cons_ne _ (Ne.symm hgne), List.indexOf_cons_ne _ (Ne.symm hhne)]
      exact Nat.succ_lt_succ hlt

/-- C6, as stated, fails: a record whose genre is `All Genres` makes the
sentinel appear twice in the vocabulary. -/
theorem genres_sentinel_twice :
    genres [sentinelGenreBook] = ["All Genres", "All Genres"] ∧
    ¬ (genres [sentinelGenreBook]).Nodup := by
  decide

/-- C6, amended: the vocabulary starts with the sentinel `All Genres`; the
entries after the sentinel are the defaulted genres of the records
(`Uncategorized` when absent or empty), none twice, in the order of their
first occurrence; the sentinel itself occurs a second time exactly when some
record has the genre `All Genres`. -/
theorem genres_vocabulary (source : List Book) :
    genres source = "All Genres" :: (genres source).tail ∧
    (genres source).tail.Nodup ∧
    (∀ g, g ∈ (genres source).tail ↔ ∃ book ∈ source, genreOrDefault book = g) ∧
    (genres source).tail.Pairwise (fun g h =>
      (source.map genreOrDefault).indexOf g < (source.map genreOrDefault).indexOf h) ∧
    (∀ book : Book, genreOrDefault book
      = if book.genre = none ∨ book.genre = some "" then "Uncategorized"
        else book.genre.getD "") ∧
    ((genres source).Nodup ↔ ¬ ∃ book ∈ source, book.genre = some "All Genres") := by
  have htail : (genres source).tail = arrayFromSet (source.map genreOrDefault) := by
    unfold genres
    rw [filter_nonempty_genres, List.tail_cons]
  have hmem : ∀ g, g ∈ (genres source).tail ↔ ∃ book ∈ source, genreOrDefault book = g := by
    intro g
    rw [htail, mem_arrayFromSet, List.mem_map]
  have hdef : ∀ book : Book, genreOrDefault book
      = if book.genre = none ∨ book.genre = some "" then "Uncategorized"
        else book.genre.getD "" := by
    intro book
    unfold genreOrDefault
    cases book.genre with
    | none => simp
    | some g =>
      by_cases h : g = ""
      · simp [h]
      · simp [h]
  refine ⟨rfl, ?_, hmem, ?_, hdef, ?_⟩
  · rw [htail]
    exact nodup_arrayFromSet _
  · rw [htail]
    exact arrayFromSet_first_seen _
  · have hcons : genres source = "All Genres" :: (genres source).tail := rfl
    rw [hcons, List.nodup_cons, hmem]
    have hnd : (genres source).tail.Nodup := by
      rw [htail]
      exact nodup_arrayFromSet _
    simp only [hnd, and_true, not_iff_not]
    constructor
    · rintro ⟨book, hb, hg⟩
      refine ⟨book, hb, ?_⟩
      rw [hdef] at hg
      cases hgen : book.genre with
      | none => rw [hgen] at hg; simp at hg
      | some g =>
        rw [hgen] at hg
        by_cases h : g = ""
        · simp [h] at hg
        · simp only [Option.some.injEq, h, or_false, Option.getD_some] at hg
          simp at hg
          rw [hg]
    · rintro ⟨book, hb, hg⟩
      refine ⟨book, hb, ?_⟩
      unfold genreOrDefault
      rw [hg]
      decide

/-! ## Genre source across fetches: theorems -/

theorem allBooks_fetchBooks (s : AppState) (ev : FetchEvent) :
    (fetchBooks s ev.search ev.outcome).allBooks
      = match ev.outcome with
        | .resolved payload => if ev.search = "" then payload.getD [] else s.allBooks
        | .rejected => s.allBooks := by
  unfold fetchBooks updateStats
  cases ev.outcome with
  | rejected => rfl
  | resolved payload =>
    by_cases h : ev.search = ""
    · simp [h]
    · simp [h]

theorem allBooks_runFetches (s : AppState) (evs : List FetchEvent) :
    (runFetches s evs).allBooks
      = evs.foldl
          (fun base ev =>
            match ev.outcome with
            | .resolved payload => if ev.search = "" then payload.getD [] else base
            | .rejected => base)
          s.allBooks := by
  induction evs generalizing s with
  | nil => rfl
  | cons ev evs ih =>
    unfold runFetches at ih ⊢
    rw [List.foldl_cons, List.foldl_cons, ih, allBooks_fetchBooks]

/-- C7, as stated, fails: when the unfiltered fetch returned no record (or
was rejected), a later search makes the vocabulary follow the search result:
it changes from `[All Genres]` to `[All Genres, Sci-Fi]` although the baseline
is still empty. -/
theorem genres_follow_search_when_baseline_empty :
    latestBaseline [⟨"", .resolved (some [])⟩, ⟨"dune", .resolved (some [bookFive])⟩] = [] ∧
    (runFetches initialState [⟨"", .resolved (some [])⟩]).genres = ["All Genres"] ∧
    (runFetches initialState
      [⟨"", .resolved (some [])⟩, ⟨"dune", .resolved (some [bookFive])⟩]).genres
        = ["All Genres", "Sci-Fi"] ∧
    genres (latestBaseline [⟨"", .resolved (some [])⟩, ⟨"dune", .resolved (some [bookFive])⟩])
      = ["All Genres"] ∧
    (runFetches initialState
      [⟨"", .rejected⟩, ⟨"dune", .resolved (some [bookFive])⟩]).genres
        = ["All Genres", "Sci-Fi"] := by
  decide

/-- C7, amended: in every state reached through fetches, `allBooks` is the
baseline (the result of the most recent successful fetch with an empty search
term); the vocabulary is computed from the baseline when the baseline is not
empty and from the current record set when it is empty; so while the baseline
is not empty a fetch with a search term leaves the vocabulary unchanged. -/
theorem genres_from_baseline (evs : List FetchEvent) :
    (runFetches initialState evs).allBooks = latestBaseline evs ∧
    (latestBaseline evs ≠ [] →
      (runFetches initialState evs).genres = genres (latestBaseline evs)) ∧
    (latestBaseline evs = [] →
      (runFetches initialState evs).genres = genres (runFetches initialState evs).books) ∧
    (∀ (term : String) (o : FetchOutcome), term ≠ "" → latestBaseline evs ≠ [] →
      (fetchBooks (runFetches initialState evs) term o).genres
        = (runFetches initialState evs).genres) := by
  have hall : (runFetches initialState evs).allBooks = latestBaseline evs :=
    allBooks_runFetches initialState evs
  have hsrc : ∀ (a b : List Book), a ≠ [] → genreSource a b = a := by
    intro a b ha
    unfold genreSource
    rw [if_pos (List.length_pos.2 ha)]
  refine ⟨hall, ?_, ?_, ?_⟩
  · intro hne
    unfold AppState.genres
    rw [hall, hsrc _ _ hne]
  · intro he
    unfold AppState.genres
    rw [hall, he]
    rfl
  · intro term o hterm hne
    have hkeep : (fetchBooks (runFetches initialState evs) term o).allBooks
        = (runFetches initialState evs).allBooks := by
      have h := allBooks_fetchBooks (runFetches initialState evs) ⟨term, o⟩
      rw [h]
      cases o with
      | rejected => rfl
      | resolved payload => simp [hterm]
    unfold AppState.genres
    rw [hkeep, hall, hsrc _ _ hne, hsrc _ _ hne]

theorem genres_from_baseline_witness :
    latestBaseline [⟨"", .resolved (some [bookFive])⟩] ≠ [] ∧
    (runFetches initialState [⟨"", .resolved (some [bookFive])⟩]).genres
      = genres (latestBaseline [⟨"", .resolved (some [bookFive])⟩]) :=
  ⟨by decide, (genres_from_baseline [⟨"", .resolved (some [bookFive])⟩]).2.1 (by decide)⟩

/-! ## Sorting: theorems -/

theorem pairwise_orderedInsert {α : Type} (cmp : α → α → Int) (P : α → Prop)
    (htotal : ∀ a b, P a → P b → cmp a b ≤ 0 ∨ cmp b a ≤ 0)
    (htrans : ∀ a b c, P a → P b → P c → cmp a b ≤ 0 → cmp b c ≤ 0 → cmp a c ≤ 0)
    (a : α) (ha : P a) (xs : List α) (hxs : ∀ x ∈ xs, P x)
    (hsorted : xs.Pairwise (fun a b => cmp a b ≤ 0)) :
    (xs.orderedInsert (fun a b => cmp a b ≤ 0) a).Pairwise (fun a b => cmp a b ≤ 0) := by
  induction xs with
  | nil => simp
  | cons b xs ih =>
    have hb : P b := hxs b (List.mem_cons_self _ _)
    have hrest : ∀ x ∈ xs, P x := fun x hx => hxs x (List.mem_cons_of_mem _ hx)
    rw [List.pairwise_cons] at hsorted
    rw [List.orderedInsert]
    split
    · rename_i hab
      rw [List.pairwise_cons, List.pairwise_cons]
      refine ⟨?_, hsorted⟩
      intro x hx
      rcases List.mem_cons.1 hx with rfl | hx
      · exact hab
      · exact htrans a b x ha hb (hrest x hx) hab (hsorted.1 x hx)
    · rename_i hab
      have hba : cmp b a ≤ 0 := by
        rcases htotal a b ha hb with h | h
        · exact absurd h hab
        · exact h
      rw [List.pairwise_cons]
      refine ⟨?_, ih hrest hsorted.2⟩
      intro x hx
      rcases (List.mem_orderedInsert _).1 hx with rfl | hx
      · exact hba
      · exact hsorted.1 x hx

theorem arraySort_perm {α : Type} (cmp : α → α → Int) (xs : List α) :
    (arraySort cmp xs).Perm xs :=
  List.perm_insertionSort _ xs

theorem arraySort_pairwise {α : Type} (cmp : α → α → Int) (P : α → Prop)
    (htotal : ∀ a b, P a → P b → cmp a b ≤ 0 ∨ cmp b a ≤ 0)
    (htrans : ∀ a b c, P a → P b → P c → cmp a b ≤ 0 → cmp b c ≤ 0 → cmp a c ≤ 0)
    (xs : List α) (hxs : ∀ x ∈ xs, P x) :
    (arraySort cmp xs).Pairwise (fun a b => cmp a b ≤ 0) := by
  induction xs with
  | nil => simp [arraySort]
  | cons a xs ih =>
    have hrest : ∀ x ∈ xs, P x := fun x hx => hxs x (List.mem_cons_of_mem _ hx)
    unfold arraySort at ih ⊢
    rw [List.insertionSort]
    refine pairwise_orderedInsert cmp P htotal htrans a (hxs a (List.mem_cons_self _ _)) _ ?_
      (ih hrest)
    intro x hx
    exact hrest x ((List.perm_insertionSort _ xs).mem_iff.1 hx)

theorem arraySort_of_pairwise {α : Type} (cmp : α → α → Int) (xs : List α)
    (h : xs.Pairwise (fun a b => cmp a b ≤ 0)) : arraySort cmp xs = xs :=
  List.Sorted.insertionSort_eq h

theorem compareBooks_title_asc (lc : String → String → Int) (a b : Book) :
    compareBooks lc "title-asc" a b = lc a.title b.title := by
  simp [compareBooks]

theorem compareBooks_availability (lc : String → String → Int) (a b : Book) :
    compareBooks lc "availability" a b
      = if a.available = b.available then lc a.title b.title
        else if a.available.truthy then -1 else 1 := by
  simp [compareBooks]

theorem compareCodePoints_total (xs ys : List Nat) :
    compareCodePoints xs ys ≤ 0 ∨ compareCodePoints ys xs ≤ 0 := by
  induction xs generalizing ys with
  | nil => cases ys <;> simp [compareCodePoints]
  | cons x xs ih =>
    cases ys with
    | nil => simp [compareCodePoints]
    | cons y ys =>
      simp only [compareCodePoints]
      rcases Nat.lt_trichotomy x y with h | h | h
      · simp [h]
      · subst h
        simpa using ih ys
      · simp [h]

theorem compareCodePoints_trans (xs ys zs : List Nat)
    (h1 : compareCodePoints xs ys ≤ 0) (h2 : compareCodePoints ys zs ≤ 0) :
    compareCodePoints xs zs ≤ 0 := by
  induction xs generalizing ys zs with
  | nil => cases zs <;> simp [compareCodePoints]
  | cons x xs ih =>
    cases ys with
    | nil => simp [compareCodePoints] at h1
    | cons y ys =>
      cases zs with
      | nil => simp [compareCodePoints] at h2
      | cons z zs =>
        simp only [compareCodePoints] at h1 h2 ⊢
        rcases Nat.lt_trichotomy x y with hxy | hxy | hxy
        · rcases Nat.lt_trichotomy y z with hyz | hyz | hyz
          · simp [Nat.lt_trans hxy hyz]
          · subst hyz
            simp [hxy]
          · simp [hyz, Nat.lt_asymm hyz] at h2
        · subst hxy
          rcases Nat.lt_trichotomy x z with hyz | hyz | hyz
          · simp [hyz]
          · subst hyz
            simp only [lt_self_iff_false, if_false] at h1 h2 ⊢
            exact ih ys zs h1 h2
          · simp [hyz, Nat.lt_asymm hyz] at h2
        · simp [hxy, Nat.lt_asymm hxy] at h1

theorem sampleCompare_total (a b : String) : sampleCompare a b ≤ 0 ∨ sampleCompare b a ≤ 0 :=
  compareCodePoints_total _ _

theorem sampleCompare_trans (a b c : String) (h1 : sampleCompare a b ≤ 0)
    (h2 : sampleCompare b c ≤ 0) : sampleCompare a c ≤ 0 :=
  compareCodePoints_trans _ _ _ h1 h2

/-- C1: with sort option `title-asc` and a locale comparison that is a total
preorder, the derived list is a permutation of the filtered list, is in
non-decreasing title order, and sorting it again (also: running the whole
filter and sort on it again) gives the same list. -/
theorem sortedBooks_title_asc (lc : String → String → Int)
    (htotal : ∀ a b, lc a b ≤ 0 ∨ lc b a ≤ 0)
    (htrans : ∀ a b c, lc a b ≤ 0 → lc b c ≤ 0 → lc a c ≤ 0)
    (books : List Book) (selectedGenre activeTab : String) (readingListIds : List JsVal) :
    (sortedBooks lc books selectedGenre activeTab readingListIds "title-asc").Perm
      (visibleBooks books selectedGenre activeTab readingListIds) ∧
    (sortedBooks lc books selectedGenre activeTab readingListIds "title-asc").Pairwise
      (fun a b => lc a.title b.title ≤ 0) ∧
    arraySort (compareBooks lc "title-asc")
        (sortedBooks lc books selectedGenre activeTab readingListIds "title-asc")
      = sortedBooks lc books selectedGenre activeTab readingListIds "title-asc" ∧
    sortedBooks lc (sortedBooks lc books selectedGenre activeTab readingListIds "title-asc")
        selectedGenre activeTab readingListIds "title-asc"
      = sortedBooks lc books selectedGenre activeTab readingListIds "title-asc" := by
  have hperm : (sortedBooks lc books selectedGenre activeTab readingListIds "title-asc").Perm
      (visibleBooks books selectedGenre activeTab readingListIds) :=
    arraySort_perm _ _
  have hsorted : (sortedBooks lc books selectedGenre activeTab readingListIds
      "title-asc").Pairwise (fun a b => compareBooks lc "title-asc" a b ≤ 0) := by
    refine arraySort_pairwise (compareBooks lc "title-asc") (fun _ => True) ?_ ?_ _
      (fun _ _ => trivial)
    · intro a b _ _
      rw [compareBooks_title_asc, compareBooks_title_asc]
      exact htotal _ _
    · intro a b c _ _ _
      rw [compareBooks_title_asc, compareBooks_title_asc, compareBooks_title_asc]
      exact htrans _ _ _
  have hagain := arraySort_of_pairwise _ _ hsorted
  refine ⟨hperm, ?_, hagain, ?_⟩
  · refine hsorted.imp ?_
    intro a b hab
    rwa [compareBooks_title_asc] at hab
  · have hv := visibleBooks_of_perm _ _ _ _ _ hperm
    have hunfold : ∀ bs : List Book,
        sortedBooks lc bs selectedGenre activeTab readingListIds "title-asc"
          = arraySort (compareBooks lc "title-asc")
              (visibleBooks bs selectedGenre activeTab readingListIds) := fun _ => rfl
    rw [hunfold (sortedBooks lc books selectedGenre activeTab readingListIds "title-asc"), hv]
    exact hagain

theorem sortedBooks_title_asc_witness :
    (sortedBooks sampleCompare scenarioBooks "All Genres" "all" [] "title-asc").Perm
      (visibleBooks scenarioBooks "All Genres" "all" []) ∧
    (sortedBooks sampleCompare scenarioBooks "All Genres" "all" [] "title-asc").map Book.title
      = ["A", "B"] :=
  ⟨(sortedBooks_title_asc sampleCompare sampleCompare_total sampleCompare_trans scenarioBooks
      "All Genres" "all" []).1, by decide⟩

/-- C10: with sort option `availability`, boolean `available` fields and a
locale comparison that is a total preorder, the derived list is a permutation
of the filtered list, no unavailable record comes before an available one, and
both the available and the unavailable records are in non-decreasing title
order. -/
theorem sortedBooks_availability (lc : String → String → Int)
    (htotal : ∀ a b, lc a b ≤ 0 ∨ lc b a ≤ 0)
    (htrans : ∀ a b c, lc a b ≤ 0 → lc b c ≤ 0 → lc a c ≤ 0)
    (books : List Book) (hbool : ∀ book ∈ books, ∃ v : Bool, book.available = JsVal.bool v)
    (selectedGenre activeTab : String) (readingListIds : List JsVal) :
    (sortedBooks lc books selectedGenre activeTab readingListIds "availability").Perm
      (visibleBooks books selectedGenre activeTab readingListIds) ∧
    (sortedBooks lc books selectedGenre activeTab readingListIds "availability").Pairwise
      (fun a b => ¬ (a.available = JsVal.bool false ∧ b.available = JsVal.bool true)) ∧
    ((sortedBooks lc books selectedGenre activeTab readingListIds "availability").filter
      (fun book => decide (book.available = JsVal.bool true))).Pairwise
        (fun a b => lc a.title b.title ≤ 0) ∧
    ((sortedBooks lc books selectedGenre activeTab readingListIds "availability").filter
      (fun book => decide (book.available = JsVal.bool false))).Pairwise
        (fun a b => lc a.title b.title ≤ 0) := by
  have hvis : ∀ book ∈ visibleBooks books selectedGenre activeTab readingListIds,
      ∃ v : Bool, book.available = JsVal.bool v := by
    intro book hb
    rw [visibleBooks_as_filter] at hb
    exact hbool book (List.mem_filter.1 hb).1
  have hsorted : (sortedBooks lc books selectedGenre activeTab readingListIds
      "availability").Pairwise (fun a b => compareBooks lc "availability" a b ≤ 0) := by
    refine arraySort_pairwise (compareBooks lc "availability")
      (fun book => ∃ v : Bool, book.available = JsVal.bool v) ?_ ?_ _ hvis
    · rintro a b ⟨x, hx⟩ ⟨y, hy⟩
      rw [compareBooks_availability, compareBooks_availability, hx, hy]
      cases x <;> cases y <;> simp [JsVal.truthy, htotal]
    · rintro a b c ⟨x, hx⟩ ⟨y, hy⟩ ⟨z, hz⟩
      rw [compareBooks_availability, compareBooks_availability, compareBooks_availability,
        hx, hy, hz]
      cases x <;> cases y <;> cases z <;> simp [JsVal.truthy]
      all_goals exact htrans _ _ _
  refine ⟨arraySort_perm _ _, ?_, ?_, ?_⟩
  · refine hsorted.imp ?_
    rintro a b hab ⟨ha, hb⟩
    rw [compareBooks_availability, ha, hb] at hab
    simp [JsVal.truthy] at hab
  · refine (List.Pairwise.and_mem.1 (hsorted.filter _)).imp ?_
    rintro a b ⟨ha, hb, hab⟩
    have ha2 : a.available = JsVal.bool true := by simpa using (List.mem_filter.1 ha).2
    have hb2 : b.available = JsVal.bool true := by simpa using (List.mem_filter.1 hb).2
    rw [compareBooks_availability, ha2, hb2] at hab
    simpa using hab
  · refine (List.Pairwise.and_mem.1 (hsorted.filter _)).imp ?_
    rintro a b ⟨ha, hb, hab⟩
    have ha2 : a.available = JsVal.bool false := by simpa using (List.mem_filter.1 ha).2
    have hb2 : b.available = JsVal.bool false := by simpa using (List.mem_filter.1 hb).2
    rw [compareBooks_availability, ha2, hb2] at hab
    simpa using hab

theorem sortedBooks_availability_witness :
    (∀ book ∈ bookFive :: scenarioBooks, ∃ v : Bool, book.available = JsVal.bool v) ∧
    (sortedBooks sampleCompare (bookFive :: scenarioBooks) "All Genres" "all" []
      "availability").Perm (visibleBooks (bookFive :: scenarioBooks) "All Genres" "all" []) ∧
    (sortedBooks sampleCompare (bookFive :: scenarioBooks) "All Genres" "all" []
      "availability").map Book.title = ["B", "Dune", "A"] :=
  ⟨by decide,
    (sortedBooks_availability sampleCompare sampleCompare_total sampleCompare_trans
      (bookFive :: scenarioBooks) (by decide) "All Genres" "all" []).1, by decide⟩

/-! ## Debounced search: theorems -/

theorem run_armed (t : Nat) (v : String) (rest : List (Nat × String))
    (hgap : List.Chain (fun k1 k2 : Nat × String => k1.1 ≤ k2.1 ∧ k2.1 < k1.1 + debounceDelay)
      (t, v) rest)
    (hchange : List.Chain (fun v w : String => w ≠ v) v (rest.map Prod.snd)) :
    SearchBar.run { inputValue := v, pending := some (t + debounceDelay, v) } rest
      = ({ inputValue := (((t, v) :: rest).getLast (List.cons_ne_nil _ _)).2,
           pending := some ((((t, v) :: rest).getLast (List.cons_ne_nil _ _)).1 + debounceDelay,
             (((t, v) :: rest).getLast (List.cons_ne_nil _ _)).2) }, []) := by
  induction rest generalizing t v with
  | nil => rfl
  | cons k rest ih =>
    obtain ⟨t2, v2⟩ := k
    rw [List.chain_cons] at hgap
    rw [List.map_cons, List.chain_cons] at hchange
    obtain ⟨⟨_, hlt⟩, hgap2⟩ := hgap
    obtain ⟨hne, hchange2⟩ := hchange
    have hnot : ¬ t + debounceDelay ≤ t2 := Nat.not_le.2 hlt
    have hstep : (SearchBar.handleChange
        { inputValue := v, pending := some (t + debounceDelay, v) } t2 v2)
        = { inputValue := v2, pending := some (t2 + debounceDelay, v2) } := by
      unfold SearchBar.handleChange
      simp only
      rw [if_neg hne]
    rw [SearchBar.run]
    simp only [SearchBar.advance, if_neg hnot, hstep, ih t2 v2 hgap2 hchange2,
      List.nil_append]
    rw [List.getLast_cons (List.cons_ne_nil _ _)]

/-- C9: when every keystroke changes the input value and follows the previous
one by less than 300 ms (and no timer is overdue at the first keystroke),
`onSearch` is called exactly once, 300 ms after the last keystroke, with the
final input value. -/
theorem debounce_single_trigger (sb : SearchBar) (ks : List (Nat × String)) (hks : ks ≠ [])
    (hfresh : ∀ due v, sb.pending = some (due, v) → (ks.head hks).1 < due)
    (hgap : ks.Chain' (fun k1 k2 => k1.1 ≤ k2.1 ∧ k2.1 < k1.1 + debounceDelay))
    (hchange : List.Chain (fun v w : String => w ≠ v) sb.inputValue (ks.map Prod.snd)) :
    sb.triggers ks = [((ks.getLast hks).1 + debounceDelay, (ks.getLast hks).2)] := by
  cases ks with
  | nil => exact absurd rfl hks
  | cons k rest =>
    obtain ⟨t, v⟩ := k
    rw [List.map_cons, List.chain_cons] at hchange
    obtain ⟨hne, hchange2⟩ := hchange
    have hgap2 : List.Chain
        (fun k1 k2 : Nat × String => k1.1 ≤ k2.1 ∧ k2.1 < k1.1 + debounceDelay) (t, v) rest :=
      hgap
    have hadv : sb.advance t = (sb, []) := by
      unfold SearchBar.advance
      cases hp : sb.pending with
      | none => rfl
      | some p =>
        obtain ⟨due, w⟩ := p
        have hlt : t < due := hfresh due w hp
        simp only [if_neg (Nat.not_le.2 hlt)]
    have hstep : sb.handleChange t v
        = { inputValue := v, pending := some (t + debounceDelay, v) } := by
      unfold SearchBar.handleChange
      rw [if_neg hne]
    unfold SearchBar.triggers
    rw [SearchBar.run]
    simp only [hadv, hstep, run_armed t v rest hgap2 hchange2, List.nil_append,
      SearchBar.settle]

theorem debounce_single_trigger_witness :
    SearchBar.triggers (SearchBar.mount 0) [(0, "a"), (100, "ab"), (150, "abc")]
      = [(450, "abc")] :=
  debounce_single_trigger (SearchBar.mount 0) [(0, "a"), (100, "ab"), (150, "abc")]
    (by decide)
    (by
      intro due v h
      simp only [SearchBar.mount, debounceDelay, Option.some.injEq, Prod.mk.injEq] at h
      simp [← h.1])
    (by simp [List.Chain', debounceDelay])
    (by simp [SearchBar.mount])

/-! ## Visibility filter: theorems -/

theorem genres_entries_nonempty (source : List Book) (g : String) (hg : g ∈ genres source) :
    g ≠ "" := by
  unfold genres at hg
  rcases List.mem_cons.1 hg with h | h
  · rw [h]
    decide
  · rw [mem_arrayFromSet] at h
    simpa using (List.mem_filter.1 h).2

/-- C2: for every selection the genre selector can hold (it starts at
`All Genres` and each of its options is a non-empty entry of the vocabulary),
the visible list is the records of the canonical list, in order, for which
(1) the selected genre is `All Genres` or equals the defaulted genre and
(2) the tab is not `reading` or the id is bookmarked; `All Genres` applies no
genre filter, every record on the reading tab is bookmarked, and filtering the
output again changes nothing. -/
theorem visibleBooks_eq_filter (books : List Book) (selectedGenre activeTab : String)
    (readingListIds : List JsVal) (hsel : selectedGenre ≠ "") :
    visibleBooks books selectedGenre activeTab readingListIds
      = books.filter (fun book =>
          (decide (selectedGenre = "All Genres") ||
            decide (genreOrDefault book = selectedGenre)) &&
          (decide (activeTab ≠ "reading") || includes readingListIds book.id)) ∧
    visibleBooks books "All Genres" activeTab readingListIds
      = books.filter (fun book =>
          decide (activeTab ≠ "reading") || includes readingListIds book.id) ∧
    (∀ book ∈ visibleBooks books selectedGenre "reading" readingListIds,
      includes readingListIds book.id = true) ∧
    visibleBooks (visibleBooks books selectedGenre activeTab readingListIds)
        selectedGenre activeTab readingListIds
      = visibleBooks books selectedGenre activeTab readingListIds ∧
    initialState.selectedGenre ≠ "" ∧
    (∀ (s : AppState) (source : List Book), ∀ g ∈ genres source,
      (handleGenreChange s g).selectedGenre ≠ "") := by
  have key := fun bs g t => visibleBooks_as_filter bs g t readingListIds
  refine ⟨?_, ?_, ?_, ?_, by decide, ?_⟩
  · rw [key]
    simp [hsel]
  · rw [key]
    simp
  · intro book hb
    rw [key] at hb
    have h2 := (List.mem_filter.1 hb).2
    simp only [Bool.and_eq_true, Bool.or_eq_true, decide_eq_true_eq, ne_eq, not_true_eq_false,
      false_or] at h2
    exact h2.2
  · rw [key, key, List.filter_filter]
    simp
  · intro s source g hg
    exact genres_entries_nonempty source g hg

theorem visibleBooks_eq_filter_witness :
    "Sci-Fi" ≠ "" ∧
    visibleBooks [bookFive] "Sci-Fi" "reading" [JsVal.num 5]
      = [bookFive].filter (fun book =>
          (decide ("Sci-Fi" = "All Genres") || decide (genreOrDefault book = "Sci-Fi")) &&
          (decide ("reading" ≠ "reading") || includes [JsVal.num 5] book.id)) :=
  ⟨by decide,
    (visibleBooks_eq_filter [bookFive] "Sci-Fi" "reading" [JsVal.num 5] (by decide)).1⟩

end BookLibrary
